import Mathlib

/-!
Verification of the Paradigm FSPD automated market taker.

A shallow embedding of `src/fspd/auto-taker.py`. Strings and byte strings are
modelled as `List Nat` (byte values), Python `int` as `Int` (or `Nat` where the
source guarantees non-negativity), JSON values as the inductive `PyVal`,
exceptions as `PyExc` with `Except` for fallible code, and the network as
explicit oracle arguments. `time.time()` is passed in as the captured
millisecond timestamp, and `random.uniform`'s draw is passed in as a rational
in `[0, 1)`.
-/

/-! ## Bytes and 32-bit words -/

/-- Truncation to a 32-bit word, the `% 2^32` wrap of all SHA-256 arithmetic. -/
def u32 (n : Nat) : Nat := n % 4294967296

/-- Right rotation of a 32-bit word by `n` bits. -/
def rotr32 (n x : Nat) : Nat := u32 ((x >>> n) ||| (x <<< (32 - n)))

/-- Big-endian bytes of a 32-bit word. -/
def wordToBytesBE (w : Nat) : List Nat :=
  [w / 16777216 % 256, w / 65536 % 256, w / 256 % 256, w % 256]

/-- Big-endian bytes (8 of them) of a 64-bit length field. -/
def lenToBytesBE (n : Nat) : List Nat :=
  [n / 72057594037927936 % 256, n / 281474976710656 % 256,
   n / 1099511627776 % 256, n / 4294967296 % 256,
   n / 16777216 % 256, n / 65536 % 256, n / 256 % 256, n % 256]

/-- Big-endian 32-bit words from a byte list (groups of four; a trailing
group shorter than four bytes is dropped — never hit on padded input). -/
def bytesToWordsBE : List Nat → List Nat
  | b1 :: b2 :: b3 :: b4 :: rest =>
      (b1 * 16777216 + b2 * 65536 + b3 * 256 + b4) :: bytesToWordsBE rest
  | _ => []

/-! ## SHA-256 (FIPS 180-4), byte-level -/

/-- The SHA-256 round constants. -/
def sha256K : List Nat :=
  [1116352408, 1899447441, 3049323471, 3921009573, 961987163, 1508970993,
   2453635748, 2870763221, 3624381080, 310598401, 607225278, 1426881987,
   1925078388, 2162078206, 2614888103, 3248222580, 3835390401, 4022224774,
   264347078, 604807628, 770255983, 1249150122, 1555081692, 1996064986,
   2554220882, 2821834349, 2952996808, 3210313671, 3336571891, 3584528711,
   113926993, 338241895, 666307205, 773529912, 1294757372, 1396182291,
   1695183700, 1986661051, 2177026350, 2456956037, 2730485921, 2820302411,
   3259730800, 3345764771, 3516065817, 3600352804, 4094571909, 275423344,
   430227734, 506948616, 659060556, 883997877, 958139571, 1322822218,
   1537002063, 1747873779, 1955562222, 2024104815, 2227730452, 2361852424,
   2428436474, 2756734187, 3204031479, 3329325298]

/-- Working state of the SHA-256 compression function. -/
structure Sha256State where
  a : Nat
  b : Nat
  c : Nat
  d : Nat
  e : Nat
  f : Nat
  g : Nat
  h : Nat
deriving Repr, DecidableEq

/-- The SHA-256 initial hash value. -/
def sha256H0 : Sha256State :=
  ⟨1779033703, 3144134277, 1013904242, 2773480762,
   1359893119, 2600822924, 528734635, 1541459225⟩

/-- The small sigma-0 message-schedule function. -/
def sha256s0 (x : Nat) : Nat := rotr32 7 x ^^^ rotr32 18 x ^^^ (x >>> 3)

/-- The small sigma-1 message-schedule function. -/
def sha256s1 (x : Nat) : Nat := rotr32 17 x ^^^ rotr32 19 x ^^^ (x >>> 10)

/-- Extend a 16-word schedule by `n` further words. -/
def sha256Extend (w : List Nat) : Nat → List Nat
  | 0 => w
  | n + 1 =>
      let w' := sha256Extend w n
      let len := w'.length
      w' ++ [u32 (sha256s1 (w'.getD (len - 2) 0) + w'.getD (len - 7) 0 +
                  sha256s0 (w'.getD (len - 15) 0) + w'.getD (len - 16) 0)]

/-- One round of the SHA-256 compression function. -/
def sha256Round (s : Sha256State) (kw : Nat × Nat) : Sha256State :=
  let S1 := rotr32 6 s.e ^^^ rotr32 11 s.e ^^^ rotr32 25 s.e
  let ch := (s.e &&& s.f) ^^^ ((4294967295 ^^^ s.e) &&& s.g)
  let temp1 := u32 (s.h + S1 + ch + kw.1 + kw.2)
  let S0 := rotr32 2 s.a ^^^ rotr32 13 s.a ^^^ rotr32 22 s.a
  let maj := (s.a &&& s.b) ^^^ (s.a &&& s.c) ^^^ (s.b &&& s.c)
  let temp2 := u32 (S0 + maj)
  ⟨u32 (temp1 + temp2), s.a, s.b, s.c, u32 (s.d + temp1), s.e, s.f, s.g⟩

/-- Compress one 64-byte block into the running hash state. -/
def sha256Block (s : Sha256State) (block : List Nat) : Sha256State :=
  let w := sha256Extend (bytesToWordsBE block) 48
  let t := (sha256K.zip w).foldl sha256Round s
  ⟨u32 (s.a + t.a), u32 (s.b + t.b), u32 (s.c + t.c), u32 (s.d + t.d),
   u32 (s.e + t.e), u32 (s.f + t.f), u32 (s.g + t.g), u32 (s.h + t.h)⟩

/-- Split a byte list into 64-byte chunks. -/
def chunks64 : List Nat → List (List Nat)
  | [] => []
  | l@(_ :: _) => l.take 64 :: chunks64 (l.drop 64)
termination_by l => l.length
decreasing_by simp_all [List.length_drop]; omega

/-- SHA-256 padding: `0x80`, zeros to 56 mod 64, then the 64-bit bit length. -/
def sha256Pad (msg : List Nat) : List Nat :=
  msg ++ 128 :: List.replicate ((119 - msg.length % 64) % 64) 0 ++
    lenToBytesBE (8 * msg.length)

/-- SHA-256 of a byte list, as the 32 digest bytes. -/
def sha256 (msg : List Nat) : List Nat :=
  let s := (chunks64 (sha256Pad msg)).foldl sha256Block sha256H0
  wordToBytesBE s.a ++ wordToBytesBE s.b ++ wordToBytesBE s.c ++
  wordToBytesBE s.d ++ wordToBytesBE s.e ++ wordToBytesBE s.f ++
  wordToBytesBE s.g ++ wordToBytesBE s.h

/-- HMAC-SHA256 (RFC 2104 with a 64-byte block), the `hmac.digest(key, msg,
'sha256')` of the source. -/
def hmacSha256 (key msg : List Nat) : List Nat :=
  let k0 := if 64 < key.length then sha256 key else key
  let k1 := k0 ++ List.replicate (64 - k0.length) 0
  let ipadded := k1.map (fun b => b ^^^ 54)
  let opadded := k1.map (fun b => b ^^^ 92)
  sha256 (opadded ++ sha256 (ipadded ++ msg))

/-! ## Base64 (Python `base64.b64encode` / `base64.b64decode`) -/

/-- The base64 alphabet, as the byte value of the character for each 6-bit
value. -/
def encodeB64Char (v : Nat) : Nat :=
  if v < 26 then v + 65
  else if v < 52 then v + 71
  else if v < 62 then v - 52 + 48
  else if v = 62 then 43
  else 47

/-- Inverse of the base64 alphabet: `none` for a byte outside it (including
the pad character `=`). -/
def decodeB64Char (c : Nat) : Option Nat :=
  if 65 ≤ c ∧ c ≤ 90 then some (c - 65)
  else if 97 ≤ c ∧ c ≤ 122 then some (c - 97 + 26)
  else if 48 ≤ c ∧ c ≤ 57 then some (c - 48 + 52)
  else if c = 43 then some 62
  else if c = 47 then some 63
  else none

/-- Python `base64.b64encode`: standard base64 with `=` padding. -/
def b64encode : List Nat → List Nat
  | b1 :: b2 :: b3 :: rest =>
      encodeB64Char (b1 / 4) :: encodeB64Char (b1 % 4 * 16 + b2 / 16) ::
      encodeB64Char (b2 % 16 * 4 + b3 / 64) :: encodeB64Char (b3 % 64) ::
      b64encode rest
  | [b1, b2] =>
      [encodeB64Char (b1 / 4), encodeB64Char (b1 % 4 * 16 + b2 / 16),
       encodeB64Char (b2 % 16 * 4), 61]
  | [b1] =>
      [encodeB64Char (b1 / 4), encodeB64Char (b1 % 4 * 16), 61, 61]
  | [] => []

/-- The loop of CPython's `binascii.a2b_base64` in non-strict mode (what
`base64.b64decode(..., validate=False)` — the source's call — runs): bytes
outside the alphabet are skipped; `=` before two data characters of a group
is skipped; a completed pad group ends decoding; a group left incomplete at
the end (or one data character over) raises `binascii.Error`, modelled as
`none`. State: `quadPos` (position in the current 4-character group),
`leftchar` (bits carried between characters), `pads` (pad characters seen in
the current group), `acc` (output bytes, reversed). -/
def a2b_base64_loop : List Nat → Nat → Nat → Nat → List Nat → Option (List Nat)
  | [], quadPos, _, _, acc =>
      if quadPos = 0 then some acc.reverse else none
  | c :: rest, quadPos, leftchar, pads, acc =>
      if c = 61 then
        if 2 ≤ quadPos ∧ 4 ≤ quadPos + (pads + 1) then some acc.reverse
        else if 2 ≤ quadPos then a2b_base64_loop rest quadPos leftchar (pads + 1) acc
        else a2b_base64_loop rest quadPos leftchar pads acc
      else
        match decodeB64Char c with
        | none => a2b_base64_loop rest quadPos leftchar pads acc
        | some v =>
          match quadPos with
          | 0 => a2b_base64_loop rest 1 v 0 acc
          | 1 => a2b_base64_loop rest 2 (v % 16) 0 ((leftchar * 4 + v / 16) :: acc)
          | 2 => a2b_base64_loop rest 3 (v % 4) 0 ((leftchar * 16 + v / 4) :: acc)
          | _ => a2b_base64_loop rest 0 0 0 ((leftchar * 64 + v) :: acc)

/-- Python `base64.b64decode` on a byte string (`validate=False`, the
default, as called by the source): `none` models a raised `binascii.Error`. -/
def a2b_base64 (input : List Nat) : Option (List Nat) :=
  a2b_base64_loop input 0 0 0 []

/-! ## Python runtime model

Exceptions, JSON-ish values, and the result of awaiting one aiohttp call.
-/

/-- The Python exceptions the program can meet. `clientConnectorError` is
`aiohttp.ClientConnectorError`, the only class the source ever catches;
`typeError`/`keyError` arise from subscripting; `otherError` stands for any
other raised exception (e.g. `aiohttp.ClientOSError`,
`aiohttp.ServerDisconnectedError`, `json.JSONDecodeError`,
`aiohttp.ContentTypeError`, `binascii.Error`), none of which is an instance
of `ClientConnectorError`. -/
inductive PyExc where
  | clientConnectorError (msg : String)
  | typeError (msg : String)
  | keyError (key : String)
  | otherError (msg : String)
deriving Repr, DecidableEq

/-- Python's `isinstance(e, aiohttp.ClientConnectorError)`, the test an
`except aiohttp.ClientConnectorError` clause performs. `ClientConnectorError`
is a leaf of aiohttp's exception hierarchy, so only that constructor
matches. -/
def matchesClientConnectorError : PyExc → Bool
  | .clientConnectorError _ => true
  | _ => false

/-- Values the program passes around: JSON data (`none`/`int`/`str`/`list`/
`dict`, with `dict` keeping insertion order as Python does) and the raw
`aiohttp.ClientResponse` object (`response`), which `get_strategies` logs
and returns as-is on a non-200 status. Rendering that object (its `repr`)
shows its status, reason and headers but not the response body, and on this
path the body is never read from the wire, so the model keeps only the
status. -/
inductive PyVal where
  | none
  | int (n : Int)
  | str (s : String)
  | list (xs : List PyVal)
  | dict (xs : List (String × PyVal))
  | response (status : Nat)

/-- Python subscripting `v[k]` with a string key: only a `dict` supports it
(raising `KeyError` when the key is absent); every other value — in
particular the raw `ClientResponse` object — raises `TypeError`. -/
def pySubscript (v : PyVal) (k : String) : Except PyExc PyVal :=
  match v with
  | .dict xs =>
      match xs.lookup k with
      | some x => .ok x
      | Option.none => .error (.keyError k)
  | _ => .error (.typeError "object is not subscriptable")

/-- Python iteration `for x in v`: lists yield elements, dicts their keys;
other values (again including the raw response object) raise `TypeError`. -/
def pyIterate (v : PyVal) : Except PyExc (List PyVal) :=
  match v with
  | .list xs => .ok xs
  | .dict xs => .ok (xs.map (fun e => .str e.1))
  | _ => .error (.typeError "object is not iterable")

/-- What awaiting one aiohttp request (plus reading/parsing its body) comes
to: either a response with its status, raw body text and the outcome of
JSON-parsing that body, or a raised exception (connection refused, reset,
disconnect, ...). -/
inductive TransportResult where
  | success (status : Nat) (rawBody : String) (jsonBody : Except PyExc PyVal)
  | raised (e : PyExc)

/-- One `logging.info` / `logging.error` line, with the interpolated values
kept structurally. -/
inductive LogEntry where
  | orderCreate (status : Nat) (resp : PyVal)
  | unableToPostOrders
  | statusCode (n : Nat)
  | responseText (v : PyVal)
  | orderPayloadEcho (p : List (String × PyVal))
  | postOrdersConnectorError (e : PyExc)
  | unableToGetStrategies
  | errorStatusCode (n : Nat)
  | errorResponseText (v : PyVal)

/-- Python's `try ... except aiohttp.ClientConnectorError as e: ...`:
a raised exception is intercepted exactly when `isinstance` matches, and any
other exception keeps propagating. -/
def tryExceptConnectorError (body : Except PyExc (List LogEntry))
    (handler : PyExc → List LogEntry) : Except PyExc (List LogEntry) :=
  match body with
  | .ok v => .ok v
  | .error e =>
      if matchesClientConnectorError e then .ok (handler e) else .error e

/-! ## Data model (`Strategy`, `TradeAction`, `OrderType`, `Order`) -/

/-- The `TradeAction` enum of the source. -/
inductive TradeAction where
  | BUY
  | SELL
deriving Repr, DecidableEq

/-- `side.name` for a `TradeAction` member. -/
def TradeAction.name : TradeAction → String
  | .BUY => "BUY"
  | .SELL => "SELL"

/-- `[*TradeAction]`: the members in declaration order. -/
def tradeActionList : List TradeAction := [TradeAction.BUY, TradeAction.SELL]

/-- The `OrderType` enum of the source. -/
inductive OrderType where
  | LIMIT
  | MARKET
deriving Repr, DecidableEq

/-- `OrderType.name`. -/
def OrderType.name : OrderType → String
  | .LIMIT => "LIMIT"
  | .MARKET => "MARKET"

/-- The `Strategy` dataclass: `id` and `min_block_size` as ingested from the
venue's strategy listing (the spec's schema declares `id` a string and
`min_block_size` an integer; the embedding types the fields accordingly). -/
structure Strategy where
  id : String
  min_block_size : Int
deriving Repr, DecidableEq

/-- The `Order` class. At runtime the source stores `side.name` (a string)
in `side`, the string `OrderType.MARKET.name` as the default `type`, and
`None` as the default `price`. -/
structure Order where
  id : String
  side : String
  amount : Int
  account_name : String
  type : String := OrderType.MARKET.name
  price : Option String := Option.none
deriving Repr, DecidableEq

/-- `Order.order_payload`: the five fixed keys in insertion order, plus
`price` exactly when `self.price` is truthy (not `None` and not the empty
string). -/
def Order.order_payload (o : Order) : List (String × PyVal) :=
  let base : List (String × PyVal) :=
    [("account_name", .str o.account_name),
     ("strategy_id", .str o.id),
     ("type", .str o.type),
     ("amount", .int o.amount),
     ("side", .str o.side)]
  match o.price with
  | Option.none => base
  | some p => if p = "" then base else base ++ [("price", .str p)]

/-! ## The `AutoTaker` class -/

/-- The instance state `__init__` sets up (plus the two fields `manager`
assigns before its loop, defaulted empty until then). The boundary and count
configuration values go through `int(...)` in `__init__`. -/
structure AutoTakerState where
  paradigm_http_url : String
  paradigm_taker_account_name : String
  paradigm_taker_access_key : String
  paradigm_taker_secret_key : List Nat
  order_number_per_strategy : Int
  order_submission_lower_boundary : Int
  order_submission_higher_boundary : Int
  availabile_strateies : List Strategy := []
  order_payloads : List Order := []

/-- The module-level globals of the script: `paradigm_http_url` as assigned
in the `__main__` block. The methods `post_order` and `get_strategies`
reference the bare name `paradigm_http_url`, which resolves here, not to the
instance attribute. -/
structure ModuleGlobals where
  paradigm_http_url : String

/-- The URL `post_order` posts to: the module-global base URL followed by
`/v1/fs/orders` (the instance is `self`, but the base URL is read from the
global). -/
def post_order_request_url (g : ModuleGlobals) (self : AutoTakerState) : String :=
  g.paradigm_http_url ++ "/v1/fs/orders"

/-- The URL `get_strategies` gets: the module-global base URL followed by
`/v1/fs/strategies?page_size=100`. -/
def get_strategies_request_url (g : ModuleGlobals) (self : AutoTakerState) : String :=
  g.paradigm_http_url ++ "/v1/fs/strategies?page_size=100"

/-- `str.encode`d decimal rendering of a natural number (the timestamp). -/
def decimalAscii (n : Nat) : List Nat := (Nat.toDigits 10 n).map Char.toNat

/-- Python `bytes.upper()`: map ASCII `a`–`z` to `A`–`Z`, leave the rest. -/
def bytesUpper (bs : List Nat) : List Nat :=
  bs.map (fun c => if 97 ≤ c ∧ c ≤ 122 then c - 32 else c)

/-- `AutoTaker.sign_request`, with the captured `int(time.time() * 1000)`
passed in as `now_ms`. A `binascii.Error` from `base64.b64decode` (the only
fallible step) is `Option.none`. -/
def sign_request (paradigm_secret_key : List Nat) (method path body : List Nat)
    (now_ms : Nat) : Option (List Nat × List Nat) :=
  match a2b_base64 paradigm_secret_key with
  | Option.none => Option.none
  | some signing_key =>
      let timestamp := decimalAscii now_ms
      let message := List.intercalate [10] [timestamp, bytesUpper method, path, body]
      let digest := hmacSha256 signing_key message
      some (timestamp, b64encode digest)

/-- `AutoTaker.construct_order_payloads`: the nested `for` loops, appending
one order per `(strategy, side)` pair. -/
def construct_order_payloads (self : AutoTakerState) : List Order :=
  self.availabile_strateies.foldl (fun order_payloads strategy =>
    tradeActionList.foldl (fun order_payloads side =>
      order_payloads ++
        [{ id := strategy.id, side := side.name, amount := strategy.min_block_size,
           account_name := self.paradigm_taker_account_name }]) order_payloads) []

/-- `AutoTaker.get_strategies`, with the awaited HTTP exchange supplied as
`tr`. On 200 the parsed JSON is returned; on any other status three
`logging.error` lines are emitted — interpolating the status code and the
unread `ClientResponse` object, never the response body — and that raw
object is returned (the `response` variable was never rebound). No `try`
block guards this method, so any raised exception propagates. -/
def get_strategies (tr : TransportResult) : List LogEntry × Except PyExc PyVal :=
  match tr with
  | .raised e => ([], .error e)
  | .success status _ jsonBody =>
      if status = 200 then
        match jsonBody with
        | .ok v => ([], .ok v)
        | .error e => ([], .error e)
      else
        ([.unableToGetStrategies, .errorStatusCode status,
          .errorResponseText (.response status)],
         .ok (.response status))

/-- One iteration of `ingest_available_strategies`'s loop body: subscript
`id` and `min_block_size` out of one entry of `results` and build a
`Strategy` (typed per the venue schema the spec declares: string id, integer
block size). -/
def strategy_of_pyval (v : PyVal) : Except PyExc Strategy := do
  let i ← pySubscript v "id"
  let m ← pySubscript v "min_block_size"
  match i, m with
  | .str s, .int n => .ok ⟨s, n⟩
  | _, _ => .error (.typeError "schema: id is a string, min_block_size an integer")

/-- `AutoTaker.ingest_available_strategies`: call `get_strategies`, then
subscript `results` out of whatever it returned and build a `Strategy` per
entry. Any exception along the way propagates (there is no handler between
here and the event loop). -/
def ingest_available_strategies (tr : TransportResult) :
    List LogEntry × Except PyExc (List Strategy) :=
  let (logs, r) := get_strategies tr
  (logs, do
    let v ← r
    let results ← pySubscript v "results"
    let items ← pyIterate results
    items.mapM strategy_of_pyval)

/-- `AutoTaker.post_order`, with the awaited POST (and body read/parse)
supplied as `tr`. The whole exchange sits in a
`try ... except aiohttp.ClientConnectorError` block: that one exception
class is logged and swallowed; any other raised exception propagates to the
caller. -/
def post_order (tr : TransportResult) (order_payload : List (String × PyVal)) :
    Except PyExc (List LogEntry) :=
  tryExceptConnectorError
    (match tr with
     | .raised e => .error e
     | .success status _ jsonBody =>
         match jsonBody with
         | .error e => .error e
         | .ok resp =>
             if status = 201 then .ok [.orderCreate status resp]
             else .ok [.unableToPostOrders, .statusCode status,
                       .responseText resp, .orderPayloadEcho order_payload])
    (fun e => [.postOrdersConnectorError e])

/-- `random.uniform(a, b)`: `a + (b - a) * r` where `r` is the underlying
`random()` draw in `[0, 1)`. -/
def pyUniform (a b r : ℚ) : ℚ := a + (b - a) * r

/-- `asyncio.gather(*tasks)` with default `return_exceptions=False`: the
results of all tasks in order, or the raised exception of a failed task. -/
def gatherExcept : List (Except PyExc (List LogEntry)) →
    Except PyExc (List (List LogEntry))
  | [] => .ok []
  | x :: xs => do
      let v ← x
      let vs ← gatherExcept xs
      .ok (v :: vs)

/-- One iteration of `manager`'s `while True` body: create one `post_order`
task per payload (the `i`-th task's HTTP exchange is `oracle i`), gather
them, then sleep `uniform(lower, upper)` (draw `r`). Yields the round's log
lines and the chosen sleep duration, or the exception that `gather`
re-raised. -/
def manager_round (self : AutoTakerState) (oracle : Nat → TransportResult)
    (r : ℚ) : Except PyExc (List LogEntry × ℚ) :=
  match gatherExcept (self.order_payloads.enum.map
      (fun p => post_order (oracle p.1) p.2.order_payload)) with
  | .error e => .error e
  | .ok logss =>
      .ok (logss.join,
           pyUniform (self.order_submission_lower_boundary : ℚ)
             (self.order_submission_higher_boundary : ℚ) r)

/-- Drop the first index of an indexed oracle (advance to the next round). -/
def shiftIdx {α : Type} (f : Nat → α) : Nat → α := fun i => f (i + 1)

/-- The first `n` iterations of `manager`'s infinite loop (`oracles k i` is
the HTTP exchange of round `k`'s `i`-th order, `rs k` round `k`'s random
draw): the per-round outcomes, or the first exception, which aborts the
loop. -/
def manager_loop (self : AutoTakerState) (oracles : Nat → Nat → TransportResult)
    (rs : Nat → ℚ) : Nat → Except PyExc (List (List LogEntry × ℚ))
  | 0 => .ok []
  | n + 1 => do
      let first ← manager_round self (oracles 0) (rs 0)
      let rest ← manager_loop self (shiftIdx oracles) (shiftIdx rs) n
      .ok (first :: rest)

/-- `AutoTaker.manager`, observed for `n` loop iterations: ingest the
strategies once, build the payloads once, then loop. Returns the startup log
lines plus either the rounds' outcomes or the exception that ended the
coroutine. -/
def manager (self : AutoTakerState) (strategyTransport : TransportResult)
    (oracles : Nat → Nat → TransportResult) (rs : Nat → ℚ) (n : Nat) :
    List LogEntry × Except PyExc (List (List LogEntry × ℚ)) :=
  let (logs, r) := ingest_available_strategies strategyTransport
  match r with
  | .error e => (logs, .error e)
  | .ok strategies =>
      let t1 := { self with availabile_strateies := strategies }
      let t2 := { t1 with order_payloads := construct_order_payloads t1 }
      (logs, manager_loop t2 oracles rs n)

/-! ## Spec-side definition: standard base64 -/

/-- Membership in the base64 alphabet proper (no pad). -/
def isB64AlphabetChar (c : Nat) : Bool := (decodeB64Char c).isSome

/-- Modelled from the spec's words "valid standard base64" (RFC 4648 §4, no
line breaks): complete four-character groups of alphabet characters, with an
optional final group of two or three alphabet characters completed by `=`
padding. Used only to state claims about which keys the decoding step
accepts; the source-side decoder is `a2b_base64`. -/
def isValidStdBase64 : List Nat → Bool
  | [] => true
  | c1 :: c2 :: c3 :: c4 :: rest =>
      isB64AlphabetChar c1 && isB64AlphabetChar c2 &&
      ((isB64AlphabetChar c3 && isB64AlphabetChar c4 && isValidStdBase64 rest) ||
       (rest.isEmpty && isB64AlphabetChar c3 && c4 = 61) ||
       (rest.isEmpty && c3 = 61 && c4 = 61))
  | _ => false

/-! ## Helper lemmas: the payload builder -/

/-- The BUY-side order `construct_order_payloads` builds for a strategy. -/
def buyOrder (account : String) (s : Strategy) : Order :=
  { id := s.id, side := "BUY", amount := s.min_block_size, account_name := account }

/-- The SELL-side order `construct_order_payloads` builds for a strategy. -/
def sellOrder (account : String) (s : Strategy) : Order :=
  { id := s.id, side := "SELL", amount := s.min_block_size, account_name := account }

lemma foldl_orders_aux (account : String) (l : List Strategy) (acc : List Order) :
    l.foldl (fun order_payloads strategy =>
      tradeActionList.foldl (fun order_payloads side =>
        order_payloads ++
          [{ id := strategy.id, side := side.name, amount := strategy.min_block_size,
             account_name := account }]) order_payloads) acc
    = acc ++ l.bind (fun s => [buyOrder account s, sellOrder account s]) := by
  induction l generalizing acc with
  | nil => simp
  | cons a l ih =>
      rw [List.foldl_cons, ih]
      simp [tradeActionList, buyOrder, sellOrder, TradeAction.name, List.append_assoc]

lemma construct_order_payloads_eq_bind (t : AutoTakerState) :
    construct_order_payloads t =
      t.availabile_strateies.bind (fun s =>
        [buyOrder t.paradigm_taker_account_name s,
         sellOrder t.paradigm_taker_account_name s]) := by
  simpa using foldl_orders_aux t.paradigm_taker_account_name t.availabile_strateies []

lemma bind_pair_length (f g : Strategy → Order) (l : List Strategy) :
    (l.bind (fun s => [f s, g s])).length = 2 * l.length := by
  induction l with
  | nil => simp
  | cons a l ih => simp [List.cons_bind, ih]; omega

lemma bind_pair_getElem_even (f g : Strategy → Order) (l : List Strategy) (i : Nat) :
    (l.bind (fun s => [f s, g s]))[2 * i]? = (l[i]?).map f := by
  induction l generalizing i with
  | nil => simp
  | cons a l ih =>
      cases i with
      | zero => simp
      | succ i =>
          have h2 : 2 * (i + 1) = (2 * i + 1) + 1 := by omega
          simp [h2, List.cons_bind, ih]

lemma bind_pair_getElem_odd (f g : Strategy → Order) (l : List Strategy) (i : Nat) :
    (l.bind (fun s => [f s, g s]))[2 * i + 1]? = (l[i]?).map g := by
  induction l generalizing i with
  | nil => simp
  | cons a l ih =>
      cases i with
      | zero => simp
      | succ i =>
          have h2 : 2 * (i + 1) + 1 = (2 * i + 1) + 2 := by omega
          simp [h2, List.cons_bind, ih]

lemma countP_bind_eq_sum (p : Order → Bool) (f : Strategy → List Order)
    (l : List Strategy) :
    (l.bind f).countP p = (l.map (fun a => (f a).countP p)).sum := by
  induction l with
  | nil => simp
  | cons a l ih => simp [List.cons_bind, List.countP_append, ih]

lemma sum_single_matching (s : Strategy) (m : Nat) (c : Strategy → Nat)
    (hc : ∀ x, c x = if x.id = s.id then m else 0) :
    ∀ l : List Strategy, (l.map Strategy.id).Nodup → s ∈ l → (l.map c).sum = m := by
  intro l
  induction l with
  | nil => intro _ hmem; simp at hmem
  | cons a l ih =>
      intro hnd hmem
      simp only [List.map_cons, List.nodup_cons] at hnd
      rcases List.mem_cons.mp hmem with rfl | hs
      · have hrest : (l.map c).sum = 0 := by
          apply List.sum_eq_zero
          intro x hx
          rcases List.mem_map.mp hx with ⟨y, hy, rfl⟩
          have : y.id ≠ s.id := by
            intro hcontra
            exact hnd.1 (hcontra ▸ List.mem_map_of_mem Strategy.id hy)
          simp [hc, this]
        simp [hc, hrest]
      · have ha : a.id ≠ s.id := by
          intro hcontra
          exact hnd.1 (by
            have : s.id ∈ l.map Strategy.id := List.mem_map_of_mem Strategy.id hs
            simpa [hcontra] using this)
        simp [hc, ha, ih hnd.2 hs]

lemma countP_pair_id (account : String) (s a : Strategy) :
    ([buyOrder account a, sellOrder account a].countP (fun o => o.id == s.id)) =
      if a.id = s.id then 2 else 0 := by
  by_cases h : a.id = s.id <;>
    simp [List.countP_cons, buyOrder, sellOrder, h]

lemma countP_pair_buy (account : String) (s a : Strategy) :
    ([buyOrder account a, sellOrder account a].countP
        (fun o => o.id == s.id && o.side == "BUY")) =
      if a.id = s.id then 1 else 0 := by
  by_cases h : a.id = s.id <;>
    simp [List.countP_cons, buyOrder, sellOrder, h]

lemma countP_pair_sell (account : String) (s a : Strategy) :
    ([buyOrder account a, sellOrder account a].countP
        (fun o => o.id == s.id && o.side == "SELL")) =
      if a.id = s.id then 1 else 0 := by
  by_cases h : a.id = s.id <;>
    simp [List.countP_cons, buyOrder, sellOrder, h]

lemma intercalate_newline_four (a b c d : List Nat) :
    List.intercalate [10] [a, b, c, d] = a ++ 10 :: (b ++ 10 :: (c ++ 10 :: d)) := by
  simp [List.intercalate, List.intersperse]

/-- A concrete taker instance for witnesses: two strategies already
ingested. -/
def sampleTaker : AutoTakerState :=
  { paradigm_http_url := "https://api.fs.test.paradigm.co"
    paradigm_taker_account_name := "acct"
    paradigm_taker_access_key := "ak"
    paradigm_taker_secret_key := "QUJD".toList.map Char.toNat
    order_number_per_strategy := 1
    order_submission_lower_boundary := 1
    order_submission_higher_boundary := 3
    availabile_strateies := [⟨"s1", 5⟩, ⟨"s2", 10⟩] }

/-! ## Claim theorems -/

/-- C1: for every secret key, method, path, body and fixed captured
timestamp `t`, `sign_request` yields (when the key decodes) the base64
encoding of the HMAC-SHA256 digest, keyed with the base64-decoded secret
key, of exactly the four byte-strings timestamp, upper-cased method, path,
body joined by single newline (byte 10) characters in that order — and the
returned timestamp is the decimal ASCII rendering of `t` in whole
milliseconds. -/
theorem sign_request_message_structure (key method path body : List Nat) (t : Nat) :
    sign_request key method path body t =
      (a2b_base64 key).map (fun signing_key =>
        (decimalAscii t,
         b64encode (hmacSha256 signing_key
           (decimalAscii t ++ 10 :: (bytesUpper method ++ 10 :: (path ++ 10 :: body)))))) := by
  unfold sign_request
  cases a2b_base64 key with
  | none => rfl
  | some sk => simp [intercalate_newline_four]

/-- C2: the payload builder emits exactly `2N` intents for `N` strategies —
for the `i`-th strategy (arrival order) first its BUY intent at position
`2i` and then its SELL intent at position `2i + 1`, each carrying that
strategy's `min_block_size` as amount — and, when strategy ids are distinct,
each id appears exactly twice, once per side. -/
theorem construct_order_payloads_two_per_strategy (t : AutoTakerState) :
    (construct_order_payloads t).length = 2 * t.availabile_strateies.length ∧
    (∀ i : Nat,
      (construct_order_payloads t)[2 * i]? =
        (t.availabile_strateies[i]?).map (buyOrder t.paradigm_taker_account_name) ∧
      (construct_order_payloads t)[2 * i + 1]? =
        (t.availabile_strateies[i]?).map (sellOrder t.paradigm_taker_account_name)) ∧
    ((t.availabile_strateies.map Strategy.id).Nodup →
      ∀ s ∈ t.availabile_strateies,
        (construct_order_payloads t).countP (fun o => o.id == s.id) = 2 ∧
        (construct_order_payloads t).countP (fun o => o.id == s.id && o.side == "BUY") = 1 ∧
        (construct_order_payloads t).countP (fun o => o.id == s.id && o.side == "SELL") = 1) := by
  rw [construct_order_payloads_eq_bind]
  refine ⟨bind_pair_length _ _ _,
    fun i => ⟨bind_pair_getElem_even _ _ _ _, bind_pair_getElem_odd _ _ _ _⟩,
    fun hnd s hs => ⟨?_, ?_, ?_⟩⟩
  · rw [countP_bind_eq_sum]
    exact sum_single_matching s 2 _ (fun x => countP_pair_id _ s x) _ hnd hs
  · rw [countP_bind_eq_sum]
    exact sum_single_matching s 1 _ (fun x => countP_pair_buy _ s x) _ hnd hs
  · rw [countP_bind_eq_sum]
    exact sum_single_matching s 1 _ (fun x => countP_pair_sell _ s x) _ hnd hs

/-- Witness for C2 at a concrete two-strategy taker. -/
theorem construct_order_payloads_two_per_strategy_witness :
    (construct_order_payloads sampleTaker).countP (fun o => o.id == "s1") = 2 ∧
    (construct_order_payloads sampleTaker).countP
      (fun o => o.id == "s1" && o.side == "BUY") = 1 ∧
    (construct_order_payloads sampleTaker).countP
      (fun o => o.id == "s1" && o.side == "SELL") = 1 :=
  (construct_order_payloads_two_per_strategy sampleTaker).2.2 (by decide)
    ⟨"s1", 5⟩ (by decide)

/-- C7: `order_number_per_strategy` is stored by `__init__` but never read
by the payload builder — two takers differing only in that value build the
identical intent list, always one BUY and one SELL per strategy. -/
theorem order_number_per_strategy_no_effect (t : AutoTakerState) (n1 n2 : Int) :
    construct_order_payloads { t with order_number_per_strategy := n1 } =
      construct_order_payloads { t with order_number_per_strategy := n2 } ∧
    (construct_order_payloads { t with order_number_per_strategy := n1 }).length =
      2 * t.availabile_strateies.length ∧
    ∀ i : Nat,
      (construct_order_payloads { t with order_number_per_strategy := n1 })[2 * i]? =
        (t.availabile_strateies[i]?).map (buyOrder t.paradigm_taker_account_name) ∧
      (construct_order_payloads { t with order_number_per_strategy := n1 })[2 * i + 1]? =
        (t.availabile_strateies[i]?).map (sellOrder t.paradigm_taker_account_name) := by
  rw [construct_order_payloads_eq_bind, construct_order_payloads_eq_bind]
  exact ⟨rfl, bind_pair_length _ _ _,
    fun i => ⟨bind_pair_getElem_even _ _ _ _, bind_pair_getElem_odd _ _ _ _⟩⟩

/-- C9: the request URLs of `post_order` and `get_strategies` are built from
the module-level global `paradigm_http_url`, so they are independent of the
`paradigm_http_url` argument stored on the instance by `__init__`. -/
theorem request_urls_read_module_global (g : ModuleGlobals) (t : AutoTakerState)
    (u1 u2 : String) :
    post_order_request_url g { t with paradigm_http_url := u1 } =
      post_order_request_url g { t with paradigm_http_url := u2 } ∧
    get_strategies_request_url g { t with paradigm_http_url := u1 } =
      get_strategies_request_url g { t with paradigm_http_url := u2 } ∧
    post_order_request_url g t = g.paradigm_http_url ++ "/v1/fs/orders" ∧
    get_strategies_request_url g t =
      g.paradigm_http_url ++ "/v1/fs/strategies?page_size=100" :=
  ⟨rfl, rfl, rfl, rfl⟩

/-- C10: the serialized payload carries `price` exactly when the order's
price is truthy (neither `None` nor the empty string), and always carries
the five fixed keys. -/
theorem order_payload_price_iff (o : Order) :
    ("price" ∈ (o.order_payload).map Prod.fst ↔ ∃ s, o.price = some s ∧ s ≠ "") ∧
    "account_name" ∈ (o.order_payload).map Prod.fst ∧
    "strategy_id" ∈ (o.order_payload).map Prod.fst ∧
    "type" ∈ (o.order_payload).map Prod.fst ∧
    "amount" ∈ (o.order_payload).map Prod.fst ∧
    "side" ∈ (o.order_payload).map Prod.fst := by
  unfold Order.order_payload
  cases hp : o.price with
  | none => simp
  | some s =>
      by_cases hs : s = "" <;> simp [hs]

/-- C6: the sleep duration the scheduler chooses is exactly
`uniform(lower, upper)`, and `uniform` stays within the closed interval
`[lower, upper]` for every draw `r ∈ [0, 1)`, degenerating to the constant
when the boundaries coincide. -/
theorem sleep_duration_within_bounds :
    (∀ (t : AutoTakerState) (oracle : Nat → TransportResult) (r : ℚ)
        (out : List LogEntry × ℚ),
        manager_round t oracle r = .ok out →
        out.2 = pyUniform (t.order_submission_lower_boundary : ℚ)
          (t.order_submission_higher_boundary : ℚ) r) ∧
    (∀ a b r : ℚ, a ≤ b → 0 ≤ r → r < 1 →
        a ≤ pyUniform a b r ∧ pyUniform a b r ≤ b) ∧
    (∀ a r : ℚ, pyUniform a a r = a) := by
  refine ⟨?_, ?_, ?_⟩
  · intro t oracle r out h
    unfold manager_round at h
    cases hg : gatherExcept (t.order_payloads.enum.map
        (fun p => post_order (oracle p.1) p.2.order_payload)) with
    | error e => rw [hg] at h; exact absurd h (by simp)
    | ok logss => rw [hg] at h; cases h; rfl
  · intro a b r hab hr0 hr1
    have h1 : 0 ≤ (b - a) * r := mul_nonneg (by linarith) hr0
    have h2 : (b - a) * r ≤ b - a := mul_le_of_le_one_right (by linarith) hr1.le
    unfold pyUniform
    constructor <;> linarith
  · intro a r
    simp [pyUniform]

/-- Witness for C6: concrete boundaries 1 and 3 with draw 1/2, and the
degenerate boundaries 2 and 2. -/
theorem sleep_duration_within_bounds_witness :
    ((1 : ℚ) ≤ pyUniform 1 3 (1/2) ∧ pyUniform 1 3 (1/2) ≤ 3) ∧
    pyUniform 2 2 (1/3) = 2 :=
  ⟨sleep_duration_within_bounds.2.1 1 3 (1/2) (by norm_num) (by norm_num)
     (by norm_num),
   sleep_duration_within_bounds.2.2 2 (1/3)⟩

/-! ## C3, C4, C8: error handling and the scheduler loop -/

/-- The HTTP outcomes `post_order`'s handler structure survives: a response
whose body parses (any status), or a raised exception that actually is an
`aiohttp.ClientConnectorError`. -/
def transportHandled : TransportResult → Bool
  | .success _ _ (.ok _) => true
  | .success _ _ (.error e) => matchesClientConnectorError e
  | .raised e => matchesClientConnectorError e

lemma post_order_handled (tr : TransportResult) (p : List (String × PyVal))
    (h : transportHandled tr = true) : ∃ logs, post_order tr p = .ok logs := by
  cases tr with
  | raised e =>
      cases e <;> simp_all [transportHandled, matchesClientConnectorError,
        post_order, tryExceptConnectorError]
  | success status raw jsonBody =>
      cases jsonBody with
      | error e =>
          cases e <;> simp_all [transportHandled, matchesClientConnectorError,
            post_order, tryExceptConnectorError]
      | ok resp =>
          by_cases h201 : status = 201 <;>
            simp [post_order, tryExceptConnectorError, h201]

lemma gather_all_ok (xs : List (Except PyExc (List LogEntry)))
    (h : ∀ x ∈ xs, ∃ v, x = .ok v) : ∃ vs, gatherExcept xs = .ok vs := by
  induction xs with
  | nil => exact ⟨[], rfl⟩
  | cons x xs ih =>
      obtain ⟨v, hv⟩ := h x (List.mem_cons_self x xs)
      obtain ⟨vs, hvs⟩ := ih (fun y hy => h y (List.mem_cons_of_mem x hy))
      exact ⟨v :: vs, by simp [gatherExcept, hv, hvs, Bind.bind, Except.bind]⟩

/-- A taker already holding one order payload, for counterexamples. -/
def sampleTakerOneOrder : AutoTakerState :=
  { sampleTaker with order_payloads := [buyOrder "acct" ⟨"s1", 5⟩] }

/-- C3 counterexample: a transport-level failure whose exception class is
not `aiohttp.ClientConnectorError` (here a server disconnect) is re-raised
by `post_order` — and it aborts the whole round through `asyncio.gather`. -/
theorem post_order_raises_unhandled_transport_error :
    post_order (.raised (.otherError "ServerDisconnectedError")) [] =
      .error (.otherError "ServerDisconnectedError") ∧
    manager_round sampleTakerOneOrder
      (fun _ => .raised (.otherError "ServerDisconnectedError")) 0 =
      .error (.otherError "ServerDisconnectedError") :=
  ⟨rfl, rfl⟩

/-- C3 amended: a non-201 response with a parseable body is only logged; a
raised `aiohttp.ClientConnectorError` is only logged; and a whole round of
submissions whose HTTP outcomes are all of those survivable kinds completes
without raising, whatever mix of failures it contains. -/
theorem post_order_swallows_rejections_and_connector_errors :
    (∀ (status : Nat) (raw : String) (resp : PyVal)
        (payload : List (String × PyVal)),
        status ≠ 201 →
        post_order (.success status raw (.ok resp)) payload =
          .ok [.unableToPostOrders, .statusCode status, .responseText resp,
               .orderPayloadEcho payload]) ∧
    (∀ (msg : String) (payload : List (String × PyVal)),
        post_order (.raised (.clientConnectorError msg)) payload =
          .ok [.postOrdersConnectorError (.clientConnectorError msg)]) ∧
    (∀ (t : AutoTakerState) (oracle : Nat → TransportResult) (r : ℚ),
        (∀ i, transportHandled (oracle i) = true) →
        ∃ out, manager_round t oracle r = .ok out) := by
  refine ⟨?_, ?_, ?_⟩
  · intro status raw resp payload h
    simp [post_order, tryExceptConnectorError, h]
  · intro msg payload
    simp [post_order, tryExceptConnectorError, matchesClientConnectorError]
  · intro t oracle r h
    obtain ⟨vs, hvs⟩ := gather_all_ok
      (t.order_payloads.enum.map (fun p => post_order (oracle p.1) p.2.order_payload))
      (by
        intro x hx
        obtain ⟨p, _, rfl⟩ := List.mem_map.mp hx
        exact post_order_handled (oracle p.1) p.2.order_payload (h p.1))
    refine ⟨(vs.join, pyUniform (t.order_submission_lower_boundary : ℚ)
      (t.order_submission_higher_boundary : ℚ) r), ?_⟩
    simp [manager_round, hvs]

/-- Witness for the amended C3 at concrete failures: a 400 rejection, a
connection-refused error, and one full round over a one-order batch. -/
theorem post_order_swallows_rejections_witness :
    post_order (.success 400 "" (.ok (.str "bad"))) [] =
      .ok [.unableToPostOrders, .statusCode 400, .responseText (.str "bad"),
           .orderPayloadEcho []] ∧
    post_order (.raised (.clientConnectorError "refused")) [] =
      .ok [.postOrdersConnectorError (.clientConnectorError "refused")] ∧
    ∃ out, manager_round sampleTakerOneOrder
      (fun _ => .success 400 "" (.ok (.str "bad"))) 0 = .ok out :=
  ⟨post_order_swallows_rejections_and_connector_errors.1 400 "" (.str "bad") []
     (by decide),
   post_order_swallows_rejections_and_connector_errors.2.1 "refused" [],
   post_order_swallows_rejections_and_connector_errors.2.2 sampleTakerOneOrder
     _ 0 (fun _ => rfl)⟩

/-- C4 counterexample: at a concrete 404 the entire observable startup
outcome — error logs and the raised exception — is identical for two
different response bodies, and the surfaced exception is a bare `TypeError`
from subscripting the unread response object, carrying neither the status
code nor the body: no `StrategyFetchFailed`-style error carrying the status
code and response body is ever surfaced. -/
theorem strategy_listing_error_carries_no_body :
    manager sampleTaker (.success 404 "Not Found" (.ok .none))
        (fun _ _ => .raised (.otherError "unused")) (fun _ => 0) 3 =
      manager sampleTaker
        (.success 404 "an entirely different body" (.error (.otherError "parse")))
        (fun _ _ => .raised (.otherError "unused")) (fun _ => 0) 3 ∧
    manager sampleTaker (.success 404 "Not Found" (.ok .none))
        (fun _ _ => .raised (.otherError "unused")) (fun _ => 0) 3 =
      ([.unableToGetStrategies, .errorStatusCode 404,
        .errorResponseText (.response 404)],
       .error (.typeError "object is not subscriptable")) :=
  ⟨rfl, rfl⟩

/-- C4 amended: a non-200 strategy listing logs the status code and the
repr of the unread response object (which does not include the response
body), then aborts startup with the `TypeError` raised by subscripting that
object — so the process fails to start, and since the result is a fixed
value that consults neither the response body nor the order oracles, no
order submission is ever attempted. -/
theorem strategy_listing_non_200_is_fatal (t : AutoTakerState) (status : Nat)
    (rawBody : String) (jsonBody : Except PyExc PyVal)
    (oracles : Nat → Nat → TransportResult) (rs : Nat → ℚ) (n : Nat)
    (h : status ≠ 200) :
    manager t (.success status rawBody jsonBody) oracles rs n =
      ([.unableToGetStrategies, .errorStatusCode status,
        .errorResponseText (.response status)],
       .error (.typeError "object is not subscriptable")) := by
  simp [manager, ingest_available_strategies, get_strategies, h, pySubscript,
    Bind.bind, Except.bind]

/-- Witness for the amended C4 at a concrete 404. -/
theorem strategy_listing_non_200_is_fatal_witness :
    manager sampleTaker (.success 404 "Not Found" (.ok .none))
      (fun _ _ => .raised (.otherError "unused")) (fun _ => 0) 3 =
      ([.unableToGetStrategies, .errorStatusCode 404,
        .errorResponseText (.response 404)],
       .error (.typeError "object is not subscriptable")) :=
  strategy_listing_non_200_is_fatal sampleTaker 404 "Not Found" (.ok .none)
    _ _ 3 (by decide)

lemma manager_loop_empty_payloads (t : AutoTakerState) (h : t.order_payloads = [])
    (oracles : Nat → Nat → TransportResult) (rs : Nat → ℚ) (n : Nat) :
    manager_loop t oracles rs n =
      .ok ((List.range n).map (fun k =>
        ([], pyUniform (t.order_submission_lower_boundary : ℚ)
          (t.order_submission_higher_boundary : ℚ) (rs k)))) := by
  induction n generalizing oracles rs with
  | zero => simp [manager_loop]
  | succ n ih =>
      have hr : manager_round t (oracles 0) (rs 0) =
          .ok ([], pyUniform (t.order_submission_lower_boundary : ℚ)
            (t.order_submission_higher_boundary : ℚ) (rs 0)) := by
        simp [manager_round, h, gatherExcept]
      simp [manager_loop, hr, ih, List.range_succ_eq_map, shiftIdx,
        Function.comp, Bind.bind, Except.bind]

/-- C8: a strategy listing with an empty `results` list makes the payload
builder return the empty list, and every observed round of the scheduler
then dispatches zero submissions, still sleeps `uniform(lower, upper)`, and
repeats without error for as many rounds as observed. -/
theorem empty_strategy_listing_loops_with_zero_submissions (t : AutoTakerState)
    (rawBody : String) (oracles : Nat → Nat → TransportResult) (rs : Nat → ℚ)
    (n : Nat) :
    construct_order_payloads { t with availabile_strateies := [] } = [] ∧
    manager t (.success 200 rawBody (.ok (.dict [("results", .list [])])))
        oracles rs n =
      ([], .ok ((List.range n).map (fun k =>
        ([], pyUniform (t.order_submission_lower_boundary : ℚ)
          (t.order_submission_higher_boundary : ℚ) (rs k))))) := by
  constructor
  · rw [construct_order_payloads_eq_bind]; rfl
  · have hpay : construct_order_payloads
        { t with availabile_strateies := ([] : List Strategy) } = [] := by
      rw [construct_order_payloads_eq_bind]; rfl
    simp [manager, ingest_available_strategies, get_strategies, pySubscript,
      pyIterate, List.lookup, hpay, manager_loop_empty_payloads, Bind.bind,
      Except.bind, List.mapM, List.mapM.loop, pure, Except.pure]

/-! ## C5: base64 key decoding -/

lemma decode_encode_b64 : ∀ v : Nat, v < 64 →
    decodeB64Char (encodeB64Char v) = some v := by decide

lemma encode_b64_ne_pad : ∀ v : Nat, v < 64 → encodeB64Char v ≠ 61 := by decide

lemma alphabet_ne_pad (c : Nat) (h : isB64AlphabetChar c = true) : c ≠ 61 := by
  intro hc
  subst hc
  revert h
  decide

/-- Steps of the decode loop on a non-pad character of the alphabet, one
lemma per quad position. -/
lemma a2b_step0 (c v : Nat) (hc : decodeB64Char c = some v) (h61 : c ≠ 61)
    (rest : List Nat) (leftchar pads : Nat) (acc : List Nat) :
    a2b_base64_loop (c :: rest) 0 leftchar pads acc =
      a2b_base64_loop rest 1 v 0 acc := by
  simp [a2b_base64_loop, h61, hc]

lemma a2b_step1 (c v : Nat) (hc : decodeB64Char c = some v) (h61 : c ≠ 61)
    (rest : List Nat) (leftchar pads : Nat) (acc : List Nat) :
    a2b_base64_loop (c :: rest) 1 leftchar pads acc =
      a2b_base64_loop rest 2 (v % 16) 0 ((leftchar * 4 + v / 16) :: acc) := by
  simp [a2b_base64_loop, h61, hc]

lemma a2b_step2 (c v : Nat) (hc : decodeB64Char c = some v) (h61 : c ≠ 61)
    (rest : List Nat) (leftchar pads : Nat) (acc : List Nat) :
    a2b_base64_loop (c :: rest) 2 leftchar pads acc =
      a2b_base64_loop rest 3 (v % 4) 0 ((leftchar * 16 + v / 4) :: acc) := by
  simp [a2b_base64_loop, h61, hc]

lemma a2b_step3 (c v : Nat) (hc : decodeB64Char c = some v) (h61 : c ≠ 61)
    (rest : List Nat) (leftchar pads : Nat) (acc : List Nat) :
    a2b_base64_loop (c :: rest) 3 leftchar pads acc =
      a2b_base64_loop rest 0 0 0 ((leftchar * 64 + v) :: acc) := by
  simp [a2b_base64_loop, h61, hc]

/-- The decode loop inverts the encoder, byte group by byte group. -/
lemma a2b_roundtrip_aux : ∀ (bs : List Nat), (∀ b ∈ bs, b < 256) →
    ∀ acc : List Nat,
      a2b_base64_loop (b64encode bs) 0 0 0 acc = some (acc.reverse ++ bs)
  | [] => by intro _ acc; simp [b64encode, a2b_base64_loop]
  | [b1] => by
      intro h acc
      have hb1 : b1 < 256 := h b1 (by simp)
      rw [show b64encode [b1] =
            [encodeB64Char (b1 / 4), encodeB64Char (b1 % 4 * 16), 61, 61] from rfl,
        a2b_step0 _ _ (decode_encode_b64 _ (by omega)) (encode_b64_ne_pad _ (by omega)),
        a2b_step1 _ _ (decode_encode_b64 _ (by omega)) (encode_b64_ne_pad _ (by omega))]
      simp [a2b_base64_loop]
      omega
  | [b1, b2] => by
      intro h acc
      have hb1 : b1 < 256 := h b1 (by simp)
      have hb2 : b2 < 256 := h b2 (by simp)
      rw [show b64encode [b1, b2] =
            [encodeB64Char (b1 / 4), encodeB64Char (b1 % 4 * 16 + b2 / 16),
             encodeB64Char (b2 % 16 * 4), 61] from rfl,
        a2b_step0 _ _ (decode_encode_b64 _ (by omega)) (encode_b64_ne_pad _ (by omega)),
        a2b_step1 _ _ (decode_encode_b64 _ (by omega)) (encode_b64_ne_pad _ (by omega)),
        a2b_step2 _ _ (decode_encode_b64 _ (by omega)) (encode_b64_ne_pad _ (by omega))]
      simp [a2b_base64_loop]
      omega
  | b1 :: b2 :: b3 :: rest => by
      intro h acc
      have hb1 : b1 < 256 := h b1 (by simp)
      have hb2 : b2 < 256 := h b2 (by simp)
      have hb3 : b3 < 256 := h b3 (by simp)
      rw [show b64encode (b1 :: b2 :: b3 :: rest) =
            encodeB64Char (b1 / 4) :: encodeB64Char (b1 % 4 * 16 + b2 / 16) ::
            encodeB64Char (b2 % 16 * 4 + b3 / 64) :: encodeB64Char (b3 % 64) ::
            b64encode rest from rfl,
        a2b_step0 _ _ (decode_encode_b64 _ (by omega)) (encode_b64_ne_pad _ (by omega)),
        a2b_step1 _ _ (decode_encode_b64 _ (by omega)) (encode_b64_ne_pad _ (by omega)),
        a2b_step2 _ _ (decode_encode_b64 _ (by omega)) (encode_b64_ne_pad _ (by omega)),
        a2b_step3 _ _ (decode_encode_b64 _ (by omega)) (encode_b64_ne_pad _ (by omega)),
        a2b_roundtrip_aux rest (fun b hb => h b (by simp [hb]))]
      have e1 : b1 / 4 * 4 + (b1 % 4 * 16 + b2 / 16) / 16 = b1 := by omega
      have e2 : (b1 % 4 * 16 + b2 / 16) % 16 * 16 + (b2 % 16 * 4 + b3 / 64) / 4 = b2 := by
        omega
      have e3 : (b2 % 16 * 4 + b3 / 64) % 4 * 64 + b3 % 64 = b3 := by omega
      simp [e1, e2, e3]

/-- A valid standard-base64 string drives the decode loop to a successful
stop from quad position 0. -/
lemma valid_decode_aux : ∀ (s : List Nat), isValidStdBase64 s = true →
    ∀ acc : List Nat, (a2b_base64_loop s 0 0 0 acc).isSome = true
  | [] => by intro _ acc; simp [a2b_base64_loop]
  | [c1] => by intro hv; simp [isValidStdBase64] at hv
  | [c1, c2] => by intro hv; simp [isValidStdBase64] at hv
  | [c1, c2, c3] => by intro hv; simp [isValidStdBase64] at hv
  | c1 :: c2 :: c3 :: c4 :: rest => by
      intro hv acc
      simp only [isValidStdBase64, Bool.and_eq_true, Bool.or_eq_true,
        decide_eq_true_eq, List.isEmpty_iff] at hv
      obtain ⟨⟨hc1, hc2⟩, hrest⟩ := hv
      obtain ⟨v1, hv1⟩ := Option.isSome_iff_exists.mp hc1
      obtain ⟨v2, hv2⟩ := Option.isSome_iff_exists.mp hc2
      rw [a2b_step0 _ _ hv1 (alphabet_ne_pad _ hc1),
        a2b_step1 _ _ hv2 (alphabet_ne_pad _ hc2)]
      rcases hrest with (⟨⟨hc3, hc4⟩, hvrest⟩ | ⟨⟨hnil, hc3⟩, hc4⟩) | ⟨⟨hnil, hc3⟩, hc4⟩
      · obtain ⟨v3, hv3⟩ := Option.isSome_iff_exists.mp hc3
        obtain ⟨v4, hv4⟩ := Option.isSome_iff_exists.mp hc4
        rw [a2b_step2 _ _ hv3 (alphabet_ne_pad _ hc3),
          a2b_step3 _ _ hv4 (alphabet_ne_pad _ hc4)]
        exact valid_decode_aux rest hvrest _
      · obtain ⟨v3, hv3⟩ := Option.isSome_iff_exists.mp hc3
        subst hnil hc4
        rw [a2b_step2 _ _ hv3 (alphabet_ne_pad _ hc3)]
        simp [a2b_base64_loop]
      · subst hnil hc3 hc4
        simp [a2b_base64_loop]

/-- C5 counterexample: the single byte `!` is not valid standard base64,
yet `sign_request` accepts it — `b64decode` silently discards the
non-alphabet character and decodes the key to the empty byte string. -/
theorem invalid_base64_key_not_rejected :
    isValidStdBase64 [33] = false ∧
    (sign_request [33] [] [] [] 0).isSome = true :=
  ⟨rfl, rfl⟩

/-- C5 amended: `sign_request` accepts every valid standard-base64 key (the
decoding step succeeds and yields the raw signing-key bytes, inverting
encoding); but the decoder does not reject every invalid key, because
non-alphabet bytes are discarded before decoding. -/
theorem sign_request_valid_base64_key_accepted :
    (∀ key : List Nat, isValidStdBase64 key = true →
        ∀ (method path body : List Nat) (t : Nat),
          (sign_request key method path body t).isSome = true) ∧
    (∀ bs : List Nat, (∀ b ∈ bs, b < 256) → a2b_base64 (b64encode bs) = some bs) := by
  constructor
  · intro key hv method path body t
    have h := valid_decode_aux key hv []
    unfold sign_request a2b_base64
    cases hd : a2b_base64_loop key 0 0 0 [] with
    | none => rw [hd] at h; simp at h
    | some sk => simp
  · intro bs h
    unfold a2b_base64
    rw [a2b_roundtrip_aux bs h []]
    simp

/-- Witness for the amended C5: the key `QUJD` (valid base64 for `ABC`) is
accepted, and a concrete three-byte round trip. -/
theorem sign_request_valid_base64_key_accepted_witness :
    (sign_request [81, 85, 74, 68] [] [] [] 0).isSome = true ∧
    a2b_base64 (b64encode [1, 2, 3]) = some [1, 2, 3] :=
  ⟨sign_request_valid_base64_key_accepted.1 [81, 85, 74, 68] (by decide) [] [] [] 0,
   sign_request_valid_base64_key_accepted.2 [1, 2, 3] (by decide)⟩
